import Mathlib

/-!
Shallow embedding of `src/main.py`: a FastAPI CRUD service over a single
in-memory list of user records.  The Python handlers mutate a module-level
list `users`; here every handler takes the store as an explicit argument
and returns its response together with the store after the call.
-/

/-- Embedding of the pydantic model `User` (`src/main.py`, lines 15-18):
an integer `id`, a string `name`, an integer `age`. -/
structure User where
  id : Int
  name : String
  age : Int
deriving DecidableEq, Repr

/-- Embedding of the module-level store `users: List[User]`
(`src/main.py`, line 23): an ordered list of records. -/
abbrev Store := List User

/-- Response of the get-by-id and update-by-id handlers: either a `User`
payload, or the `{"error": msg}` JSON object produced on the not-found
path (`src/main.py`, lines 65 and 81). -/
inductive Response where
  | user (u : User)
  | error (msg : String)
deriving DecidableEq, Repr

/-- A `{"message": msg}` JSON object, as returned by `delete_user`
(`src/main.py`, line 96). -/
structure MessageResponse where
  message : String
deriving DecidableEq, Repr

/-- Embedding of `create_user` (`src/main.py`, lines 37-40): appends the
record to the end of the store and echoes it back. -/
def create_user (user : User) (users : Store) : User × Store :=
  (user, users ++ [user])

/-- Embedding of `read_users` (`src/main.py`, lines 47-49): returns the
store contents as they are. -/
def read_users (users : Store) : List User :=
  users

/-- Embedding of `read_user` (`src/main.py`, lines 56-65): linear scan in
insertion order, returning the first record whose `id` matches, or the
`{"error": "User not found"}` object when none does. -/
def read_user (user_id : Int) : Store → Response
  | [] => .error "User not found"
  | u :: rest =>
    if u.id = user_id then .user u else read_user user_id rest

/-- Embedding of `update_user` (`src/main.py`, lines 72-81): linear scan
for the first record whose `id` matches the path id; on a match its
`name` and `age` are overwritten in place with the body's values (the
body's `id` is never written) and the mutated record is returned; when no
record matches, the `{"error": "User not found"}` object is returned and
the store is untouched. -/
def update_user (user_id : Int) (updated_user : User) : Store → Response × Store
  | [] => (.error "User not found", [])
  | u :: rest =>
    if u.id = user_id then
      (.user { u with name := updated_user.name, age := updated_user.age },
       { u with name := updated_user.name, age := updated_user.age } :: rest)
    else
      ((update_user user_id updated_user rest).1,
       u :: (update_user user_id updated_user rest).2)

/-- Embedding of `delete_user` (`src/main.py`, lines 88-96): keeps exactly
the records whose `id` differs from the path id (a list comprehension in
the source), and returns `{"message": "User deleted"}` unconditionally. -/
def delete_user (user_id : Int) (users : Store) : MessageResponse × Store :=
  (⟨"User deleted"⟩, users.filter (fun u => decide (u.id ≠ user_id)))

/-- C1: on the empty store, `read_user` and `update_user` with any id (and
any body) yield the `{"error": "User not found"}` object, an outcome
distinct from every successful `Response.user` value. -/
theorem C1_not_found_on_empty_store (user_id : Int) (body : User) :
    read_user user_id [] = Response.error "User not found" ∧
    (update_user user_id body []).1 = Response.error "User not found" ∧
    (∀ u : User, read_user user_id [] ≠ Response.user u) ∧
    (∀ u : User, (update_user user_id body []).1 ≠ Response.user u) := by
  refine ⟨rfl, rfl, ?_, ?_⟩ <;> intro u h <;>
    simp [read_user, update_user] at h

/-- C2: whenever some record in the store has id 5, updating id 5 with the
body (id=999, name="Bobby", age=21) returns the matched record with name
"Bobby", age 21 and id still 5, and a subsequent get of id 5 returns
exactly (id=5, name="Bobby", age=21). -/
theorem C2_update_preserves_id_changes_fields (users : Store)
    (h : ∃ u ∈ users, u.id = 5) :
    (update_user 5 ⟨999, "Bobby", 21⟩ users).1 =
      Response.user ⟨5, "Bobby", 21⟩ ∧
    read_user 5 (update_user 5 ⟨999, "Bobby", 21⟩ users).2 =
      Response.user ⟨5, "Bobby", 21⟩ := by
  induction users with
  | nil => simp at h
  | cons w rest ih =>
    by_cases hw : w.id = 5
    · constructor
      · simp only [update_user, if_pos hw]
        simp [hw]
      · simp only [update_user, if_pos hw, read_user]
        simp [hw]
    · have h' : ∃ u ∈ rest, u.id = 5 := by
        obtain ⟨v, hv, hvid⟩ := h
        rcases List.mem_cons.mp hv with rfl | hv
        · exact absurd hvid hw
        · exact ⟨v, hv, hvid⟩
      obtain ⟨ih1, ih2⟩ := ih h'
      constructor
      · simpa only [update_user, if_neg hw] using ih1
      · simp only [update_user, if_neg hw, read_user, if_neg hw]
        exact ih2

/-- Witness for C2 at the store obtained by creating (id=5, name="Bob",
age=20) in the empty store. -/
theorem C2_update_preserves_id_changes_fields_witness :
    (∃ u ∈ (create_user ⟨5, "Bob", 20⟩ []).2, u.id = 5) ∧
    ((update_user 5 ⟨999, "Bobby", 21⟩ (create_user ⟨5, "Bob", 20⟩ []).2).1 =
      Response.user ⟨5, "Bobby", 21⟩ ∧
     read_user 5
        (update_user 5 ⟨999, "Bobby", 21⟩ (create_user ⟨5, "Bob", 20⟩ []).2).2 =
      Response.user ⟨5, "Bobby", 21⟩) :=
  ⟨by decide, C2_update_preserves_id_changes_fields
      (create_user ⟨5, "Bob", 20⟩ []).2 (by decide)⟩

/-- C3: for every store and id, `delete_user` removes every record whose
id equals the given id, leaving exactly the subsequence of records whose
id differs: no survivor matches, every record it dropped matched, and the
result is the filter of the original store. -/
theorem C3_delete_removes_all_matches (user_id : Int) (users : Store) :
    (∀ u ∈ (delete_user user_id users).2, u.id ≠ user_id) ∧
    (∀ u ∈ users, u ∉ (delete_user user_id users).2 → u.id = user_id) ∧
    (delete_user user_id users).2 =
      users.filter (fun u => decide (u.id ≠ user_id)) := by
  refine ⟨?_, ?_, rfl⟩
  · intro u hu
    simp only [delete_user, List.mem_filter, decide_eq_true_eq] at hu
    exact hu.2
  · intro u hu hnot
    by_contra hne
    exact hnot (by simp [delete_user, List.mem_filter, hu, hne])

/-- C4: for every store and id — matching records present or not,
including a non-existent id on the empty store — `delete_user` returns the
same success message `{"message": "User deleted"}` and never errors. -/
theorem C4_delete_idempotent_message (user_id : Int) (users : Store) :
    (delete_user user_id users).1 = MessageResponse.mk "User deleted" ∧
    (delete_user user_id users).1 = (delete_user 42 ([] : Store)).1 :=
  ⟨rfl, rfl⟩

/-- C5: duplicate ids are permitted: creating two records with id 7 (any
names and ages) from the empty store yields a store of length 2 containing
both, and `read_user` on id 7 returns exactly the first-inserted one. -/
theorem C5_duplicate_ids_permitted (n1 n2 : String) (a1 a2 : Int) :
    ((create_user ⟨7, n2, a2⟩ (create_user ⟨7, n1, a1⟩ []).2).2).length = 2 ∧
    (⟨7, n1, a1⟩ : User) ∈
      (create_user ⟨7, n2, a2⟩ (create_user ⟨7, n1, a1⟩ []).2).2 ∧
    (⟨7, n2, a2⟩ : User) ∈
      (create_user ⟨7, n2, a2⟩ (create_user ⟨7, n1, a1⟩ []).2).2 ∧
    read_user 7 (create_user ⟨7, n2, a2⟩ (create_user ⟨7, n1, a1⟩ []).2).2 =
      Response.user ⟨7, n1, a1⟩ := by
  refine ⟨rfl, ?_, ?_, ?_⟩ <;> simp [create_user, read_user]

/-- C6: round-trip: in any store with no record of id 1, creating
(id=1, name="Alice", age=30) and then getting id 1 returns a record equal
to it in all three fields. -/
theorem C6_round_trip (users : Store) (h : ∀ u ∈ users, u.id ≠ 1) :
    read_user 1 (create_user ⟨1, "Alice", 30⟩ users).2 =
      Response.user ⟨1, "Alice", 30⟩ := by
  induction users with
  | nil => rfl
  | cons w rest ih =>
    have hw : w.id ≠ 1 := h w (List.mem_cons_self w rest)
    have ih' := ih (fun v hv => h v (List.mem_cons_of_mem w hv))
    simp only [create_user, List.cons_append, read_user, if_neg hw]
    simpa only [create_user] using ih'

/-- Witness for C6 at the empty store. -/
theorem C6_round_trip_witness :
    (∀ u ∈ ([] : Store), u.id ≠ 1) ∧
    read_user 1 (create_user ⟨1, "Alice", 30⟩ []).2 =
      Response.user ⟨1, "Alice", 30⟩ :=
  ⟨by simp, C6_round_trip [] (by simp)⟩

/-- C7: `create_user` appends at the end of the store and `read_users`
returns the full store in insertion order; in particular, creating
records with ids 1, 2, 3 in that order from the empty store makes
`read_users` list them in exactly that order. -/
theorem C7_list_reflects_inserts :
    (∀ (u : User) (users : Store), (create_user u users).2 = users ++ [u]) ∧
    (∀ users : Store, read_users users = users) ∧
    (∀ (n1 n2 n3 : String) (a1 a2 a3 : Int),
      read_users
        (create_user ⟨3, n3, a3⟩
          (create_user ⟨2, n2, a2⟩ (create_user ⟨1, n1, a1⟩ []).2).2).2 =
        [⟨1, n1, a1⟩, ⟨2, n2, a2⟩, ⟨3, n3, a3⟩]) := by
  refine ⟨fun u users => rfl, fun users => rfl, ?_⟩
  intro n1 n2 n3 a1 a2 a3
  rfl

/-- C8: whenever some record matches the path id, `update_user` rewrites
only the name and age of the first match: the store splits as
`pre ++ u :: post` with no match in `pre` and `u` the first match, and the
store after the call is `pre ++ u' :: post` where `u'` keeps `u.id`; in
particular every other record, the order and the length are unchanged. -/
theorem C8_update_frame (user_id : Int) (body : User) (users : Store)
    (h : ∃ u ∈ users, u.id = user_id) :
    ∃ pre u post,
      users = pre ++ u :: post ∧
      (∀ v ∈ pre, v.id ≠ user_id) ∧
      u.id = user_id ∧
      (update_user user_id body users).2 =
        pre ++ ({ u with name := body.name, age := body.age } : User) :: post ∧
      (update_user user_id body users).2.length = users.length := by
  induction users with
  | nil => simp at h
  | cons w rest ih =>
    by_cases hw : w.id = user_id
    · refine ⟨[], w, rest, by simp, by simp, hw, ?_, ?_⟩
      · simp [update_user, if_pos hw]
      · simp [update_user, if_pos hw]
    · have h' : ∃ u ∈ rest, u.id = user_id := by
        obtain ⟨v, hv, hvid⟩ := h
        rcases List.mem_cons.mp hv with rfl | hv
        · exact absurd hvid hw
        · exact ⟨v, hv, hvid⟩
      obtain ⟨pre, u, post, heq, hpre, huid, hupd, hlen⟩ := ih h'
      refine ⟨w :: pre, u, post, by simp [heq], ?_, huid, ?_, ?_⟩
      · intro v hv
        rcases List.mem_cons.mp hv with rfl | hv
        · exact hw
        · exact hpre v hv
      · simp only [update_user, if_neg hw, hupd, List.cons_append]
      · simp only [update_user, if_neg hw, List.length_cons, hlen]

/-- Witness for C8 at the store `[(id=5, name="Bob", age=20)]` with path
id 5 and body (id=999, name="Bobby", age=21). -/
theorem C8_update_frame_witness :
    (∃ u ∈ ([⟨5, "Bob", 20⟩] : Store), u.id = 5) ∧
    (∃ pre u post,
      ([⟨5, "Bob", 20⟩] : Store) = pre ++ u :: post ∧
      (∀ v ∈ pre, v.id ≠ 5) ∧
      u.id = 5 ∧
      (update_user 5 ⟨999, "Bobby", 21⟩ ([⟨5, "Bob", 20⟩] : Store)).2 =
        pre ++ ({ u with name := "Bobby", age := 21 } : User) :: post ∧
      (update_user 5 ⟨999, "Bobby", 21⟩ ([⟨5, "Bob", 20⟩] : Store)).2.length =
        ([⟨5, "Bob", 20⟩] : Store).length) :=
  ⟨by decide, C8_update_frame 5 ⟨999, "Bobby", 21⟩ [⟨5, "Bob", 20⟩] (by decide)⟩

/-- C9: when no record matches the path id, `update_user` returns the
not-found error and leaves the store completely unchanged. -/
theorem C9_update_not_found_unchanged (user_id : Int) (body : User)
    (users : Store) (h : ∀ u ∈ users, u.id ≠ user_id) :
    update_user user_id body users =
      (Response.error "User not found", users) := by
  induction users with
  | nil => rfl
  | cons w rest ih =>
    have hw : w.id ≠ user_id := h w (List.mem_cons_self w rest)
    have ih' := ih (fun v hv => h v (List.mem_cons_of_mem w hv))
    simp [update_user, if_neg hw, ih']

/-- Witness for C9 at the one-element store `[(id=1, name="A", age=1)]`
with path id 2. -/
theorem C9_update_not_found_unchanged_witness :
    (∀ u ∈ ([⟨1, "A", 1⟩] : Store), u.id ≠ 2) ∧
    update_user 2 ⟨2, "B", 2⟩ ([⟨1, "A", 1⟩] : Store) =
      (Response.error "User not found", ([⟨1, "A", 1⟩] : Store)) :=
  ⟨by decide, C9_update_not_found_unchanged 2 ⟨2, "B", 2⟩ [⟨1, "A", 1⟩] (by decide)⟩

/-- C10: `delete_user` keeps the surviving records in their original
relative order: the resulting store is a sublist of the original, and
every record whose id differs from the given id survives. -/
theorem C10_delete_preserves_order (user_id : Int) (users : Store) :
    List.Sublist (delete_user user_id users).2 users ∧
    (∀ u ∈ users, u.id ≠ user_id → u ∈ (delete_user user_id users).2) := by
  constructor
  · exact List.filter_sublist users
  · intro u hu hid
    simp [delete_user, List.mem_filter, hu, hid]
